import Mathlib

/-
Verification of SC.LinkView (src/frameworks/desktop/views/link_view.js):
the cold-path render, the warm-path update, and the two cacheable
computed properties displayBody and hreflang, together with a model of
the computed-property cache they rely on.
-/

set_option autoImplicit false

namespace LinkView

/-- A JavaScript value as it occurs in this view: null, undefined, a
boolean, or a string.  Truthiness follows JavaScript semantics. -/
inductive JSVal where
  | vNull
  | vUndef
  | vBool (b : Bool)
  | vStr (s : String)
  deriving DecidableEq, Repr

open JSVal

/-- JavaScript truthiness for the values of `JSVal`: null, undefined,
false and the empty string are falsy, everything else is truthy. -/
def truthy : JSVal → Bool
  | vNull => false
  | vUndef => false
  | vBool b => b
  | vStr s => s != ""

/-- Whether a `JSVal` is a string value. -/
def isStr : JSVal → Bool
  | vStr _ => true
  | _ => false

/-- Apply a string transformation under the `vStr` constructor, leaving
non-string values unchanged. -/
def mapStr (f : String → String) : JSVal → JSVal
  | vStr s => vStr (f s)
  | v => v

/-- Modelled from the spec: the per-character step of the host
environment's text-escaping function (`SC.RenderContext.escapeHTML` is
not part of src/).  The spec fixes its behaviour on `<b>hi</b>`, which
this entity replacement of the markup-significant characters matches. -/
def escapeChar (c : Char) : String :=
  if c = '&' then "&amp;"
  else if c = '<' then "&lt;"
  else if c = '>' then "&gt;"
  else String.singleton c

/-- Modelled from the spec: `SC.RenderContext.escapeHTML`, the host
text-escaping function applied before inserting user content. -/
def escapeHTML (s : String) : String :=
  s.data.foldl (fun acc c => acc ++ escapeChar c) ""

/-- The display snapshot the render and update paths read: one field per
`this.get(...)` call in `SC.LinkView.render` (the warm path reads the
first six only). -/
structure Snapshot where
  displayBody : JSVal
  displayToolTip : JSVal
  fileName : JSVal
  escapeHTML : Bool
  href : JSVal
  hreflang : JSVal
  ping : Option (List String)
  rel : Option (List String)
  target : JSVal
  type : JSVal
  deriving DecidableEq, Repr

/-- The JavaScript expression `a ? a.join(' ') : null` used for the
`ping` and `rel` arrays in `SC.LinkView.render`. -/
def joinSp : Option (List String) → JSVal
  | some l => vStr (String.intercalate " " l)
  | none => vNull

/-- What `SC.LinkView.render` hands to its render context: the attribute
pairs passed to `context.setAttr`, in source order, and the content
passed to `context.push`. -/
structure RenderOutput where
  attrs : List (String × JSVal)
  content : JSVal
  deriving DecidableEq, Repr

/-- Translation of `SC.LinkView.render` (cold path): escape the tooltip
when it is truthy and `escapeHTML` is set, emit the eight attributes,
escape the body under the same condition, and push it as content. -/
def render (s : Snapshot) : RenderOutput :=
  let displayToolTip :=
    if truthy s.displayToolTip && s.escapeHTML then
      mapStr escapeHTML s.displayToolTip
    else s.displayToolTip
  let displayBody :=
    if truthy s.displayBody && s.escapeHTML then
      mapStr escapeHTML s.displayBody
    else s.displayBody
  { attrs := [("download", s.fileName),
              ("href", s.href),
              ("hreflang", s.hreflang),
              ("ping", joinSp s.ping),
              ("rel", joinSp s.rel),
              ("target", s.target),
              ("title", displayToolTip),
              ("type", s.type)],
    content := displayBody }

/-- Write a key to an association list, replacing the first binding of
that key or appending a fresh binding. -/
def setA {α : Type} (l : List (String × α)) (k : String) (v : α) : List (String × α) :=
  match l with
  | [] => [(k, v)]
  | (k', v') :: rest =>
    if k' = k then (k, v) :: rest else (k', v') :: setA rest k v

/-- Read a key from an association list (first binding wins). -/
def getA {α : Type} (l : List (String × α)) (k : String) : Option α :=
  match l with
  | [] => none
  | (k', v') :: rest => if k' = k then some v' else getA rest k

/-- The backing node (the jQuery element handed to `update`): its
attribute mapping and its inner HTML content. -/
structure Node where
  attrs : List (String × JSVal)
  html : JSVal
  deriving DecidableEq, Repr

/-- Build the backing node the cold path creates: apply the emitted
attribute pairs in order and set the content. -/
def applyOutput (out : RenderOutput) : Node :=
  { attrs := out.attrs.foldl (fun acc kv => setA acc kv.1 kv.2) [],
    html := out.content }

/-- Result of the warm path: the mutated node together with the ordered
log of the mutation targets that were written (`jqEl.attr` calls plus
the final `jqEl.html` call, recorded as "html"). -/
structure UpdateResult where
  node : Node
  mutated : List String
  deriving DecidableEq, Repr

/-- Translation of `SC.LinkView.update` (warm path): unconditionally
write the download, href, hreflang and title attributes and the HTML
content, escaping tooltip and body exactly as the cold path does.  No
diffing against a previous snapshot happens in the source. -/
def update (n : Node) (s : Snapshot) : UpdateResult :=
  let n1 : Node := { n with attrs := setA n.attrs "download" s.fileName }
  let n2 : Node := { n1 with attrs := setA n1.attrs "href" s.href }
  let n3 : Node := { n2 with attrs := setA n2.attrs "hreflang" s.hreflang }
  let displayToolTip :=
    if truthy s.displayToolTip && s.escapeHTML then
      mapStr escapeHTML s.displayToolTip
    else s.displayToolTip
  let n4 : Node := { n3 with attrs := setA n3.attrs "title" displayToolTip }
  let displayBody :=
    if truthy s.displayBody && s.escapeHTML then
      mapStr escapeHTML s.displayBody
    else s.displayBody
  let n5 : Node := { n4 with html := displayBody }
  { node := n5, mutated := ["download", "href", "hreflang", "title", "html"] }

/-- Translation of the computed property `SC.LinkView.displayBody`:
`(ret && localize) ? SC.String.loc(ret) : (ret || '')`, with the
localization function `loc` as a parameter (`SC.String.loc` is outside
this file's source). -/
def displayBody (loc : String → String) (body localize : JSVal) : JSVal :=
  if truthy body && truthy localize then mapStr loc body
  else if truthy body then body
  else vStr ""

/-- Translation of the computed property `SC.LinkView.hreflang`:
`language || SC.Locale.currentLocale.language`, with the current
locale's language as a parameter (`SC.Locale` is outside this file's
source). -/
def hreflang (currentLocaleLanguage : String) (language : JSVal) : JSVal :=
  if truthy language then language else vStr currentLocaleLanguage

/-- Read a raw property value; an absent property reads as `undefined`,
as `this.get` does for an unset slot. -/
def getRaw (raws : List (String × JSVal)) (k : String) : JSVal :=
  match getA raws k with
  | some v => v
  | none => vUndef

/-- Modelled from the spec: a Computed Entry of the Computed Property
Cache (the `.property(...).cacheable()` machinery of `SC.Object` is not
part of src/).  Dependencies are declared raw-property names — as in
both computed entries of this view — and `compute` derives the value
from the raw store. -/
structure CEntry where
  deps : List String
  compute : List (String × JSVal) → JSVal

/-- Modelled from the spec: the state of the Computed Property Cache —
the raw property values, the declared computed entries, and the memo
table.  A key present in `memo` is a valid cached entry; an absent key
is invalid (never computed, or invalidated by a dependency write). -/
structure Cache where
  raws : List (String × JSVal)
  entries : List (String × CEntry)
  memo : List (String × JSVal)

/-- Whether the computed entry registered under `entryName` declares
`propName` among its dependencies. -/
def dependsOn (entries : List (String × CEntry)) (entryName propName : String) : Bool :=
  match getA entries entryName with
  | some e => e.deps.contains propName
  | none => false

/-- Modelled from the spec: `set(propertyName, value)` writes the raw
property and eagerly invalidates every computed entry whose declared
dependencies include it, with no value comparison short-circuit. -/
def Cache.set (c : Cache) (name : String) (v : JSVal) : Cache :=
  { c with raws := setA c.raws name v,
           memo := c.memo.filter fun kv => !(dependsOn c.entries kv.1 name) }

/-- Modelled from the spec: `get(name)` returns the memoized value on a
valid entry with no recomputation; on an invalid computed entry it runs
`compute` against the current raw values, memoizes and returns the
result; on a plain raw property it reads the raw store.  The boolean
reports whether `compute` was invoked by this call. -/
def Cache.get (c : Cache) (name : String) : JSVal × Cache × Bool :=
  match getA c.memo name with
  | some v => (v, c, false)
  | none =>
    match getA c.entries name with
    | some e =>
      let v := e.compute c.raws
      (v, { c with memo := setA c.memo name v }, true)
    | none => (getRaw c.raws name, c, false)

/-- Apply a sequence of raw-property writes in order. -/
def runSets (c : Cache) (writes : List (String × JSVal)) : Cache :=
  writes.foldl (fun acc p => acc.set p.1 p.2) c

/-- The caller contract the spec documents for compute functions: the
computed value depends only on the declared dependencies' values. -/
def RespectsDeps (e : CEntry) : Prop :=
  ∀ r1 r2 : List (String × JSVal),
    (∀ d ∈ e.deps, getA r1 d = getA r2 d) → e.compute r1 = e.compute r2

/-- Cache coherence: every memoized binding belongs to a declared
computed entry and equals its compute function applied to the current
raw values — the spec's "no stale cache is ever observed" invariant. -/
def Coherent (c : Cache) : Prop :=
  ∀ kv ∈ c.memo, ∃ e, getA c.entries kv.1 = some e ∧ kv.2 = e.compute c.raws

/-- The `displayBody` computed entry exactly as declared in the source:
dependencies `body` and `localize`, computing `displayBody`. -/
def displayBodyEntry (loc : String → String) : CEntry :=
  { deps := ["body", "localize"],
    compute := fun raws => displayBody loc (getRaw raws "body") (getRaw raws "localize") }

/-- The `hreflang` computed entry exactly as declared in the source:
dependencies `language` and `localize`, computing `hreflang` (the
compute function does not read `localize`, but the source declares it). -/
def hreflangEntry (currentLocaleLanguage : String) : CEntry :=
  { deps := ["language", "localize"],
    compute := fun raws => hreflang currentLocaleLanguage (getRaw raws "language") }

theorem getA_setA_self {α : Type} (l : List (String × α)) (k : String) (v : α) :
    getA (setA l k v) k = some v := by
  induction l with
  | nil => simp [setA, getA]
  | cons hd tl ih =>
    by_cases h : hd.1 = k
    · simp [setA, getA, h]
    · simp [setA, getA, h, ih]

theorem getA_setA_ne {α : Type} (l : List (String × α)) (k k' : String) (v : α)
    (h : k' ≠ k) : getA (setA l k v) k' = getA l k' := by
  have h' : ¬ k = k' := fun hh => h hh.symm
  induction l with
  | nil => simp [setA, getA, h']
  | cons hd tl ih =>
    by_cases hk : hd.1 = k
    · simp [setA, getA, hk, h']
    · by_cases hk' : hd.1 = k'
      · simp [setA, getA, hk, hk', h]
      · simp [setA, getA, hk, hk', ih]

theorem setA_getA_eq {α : Type} (l : List (String × α)) (k : String) (v : α)
    (h : getA l k = some v) : setA l k v = l := by
  induction l with
  | nil => simp [getA] at h
  | cons hd tl ih =>
    by_cases hk : hd.1 = k
    · simp [getA, hk] at h
      simp only [setA, if_pos hk]
      rw [← h, ← hk]
    · simp [getA, hk] at h
      simp [setA, hk, ih h]

theorem getA_mem {α : Type} (l : List (String × α)) (k : String) (v : α)
    (h : getA l k = some v) : (k, v) ∈ l := by
  induction l with
  | nil => simp [getA] at h
  | cons hd tl ih =>
    by_cases hk : hd.1 = k
    · simp [getA, hk] at h
      simp [← h, ← hk]
    · simp [getA, hk] at h
      exact List.mem_cons_of_mem _ (ih h)

theorem set_entries (c : Cache) (n : String) (v : JSVal) :
    (c.set n v).entries = c.entries := rfl

theorem runSets_entries (c : Cache) (writes : List (String × JSVal)) :
    (runSets c writes).entries = c.entries := by
  induction writes generalizing c with
  | nil => rfl
  | cons w ws ih => simpa [runSets] using ih (c.set w.1 w.2)

theorem coherent_set (c : Cache) (n : String) (v : JSVal)
    (hresp : ∀ p ∈ c.entries, RespectsDeps p.2) (hcoh : Coherent c) :
    Coherent (c.set n v) := by
  intro kv hkv
  have hmem : kv ∈ c.memo ∧ (!(dependsOn c.entries kv.1 n)) = true := by
    simpa [Cache.set, List.mem_filter] using hkv
  obtain ⟨e, he, hv⟩ := hcoh kv hmem.1
  refine ⟨e, by simpa [Cache.set] using he, ?_⟩
  have hnd : ¬ (n ∈ e.deps) := by
    simpa [dependsOn, he] using hmem.2
  have hrd : RespectsDeps e := hresp (kv.1, e) (getA_mem _ _ _ he)
  have hcompute : e.compute (setA c.raws n v) = e.compute c.raws := by
    apply hrd
    intro d hd
    exact getA_setA_ne _ _ _ _ (fun hdn => hnd (hdn ▸ hd))
  calc kv.2 = e.compute c.raws := hv
    _ = e.compute (c.set n v).raws := by rw [Cache.set]; exact hcompute.symm

theorem coherent_runSets (c : Cache) (writes : List (String × JSVal))
    (hresp : ∀ p ∈ c.entries, RespectsDeps p.2) (hcoh : Coherent c) :
    Coherent (runSets c writes) := by
  induction writes generalizing c with
  | nil => exact hcoh
  | cons w ws ih =>
    have h1 : Coherent (c.set w.1 w.2) := coherent_set c w.1 w.2 hresp hcoh
    have h2 : ∀ p ∈ (c.set w.1 w.2).entries, RespectsDeps p.2 := by
      rw [set_entries]; exact hresp
    simpa [runSets] using ih (c.set w.1 w.2) h2 h1

theorem get_fst_of_coherent (c : Cache) (name : String) (e : CEntry)
    (hcoh : Coherent c) (he : getA c.entries name = some e) :
    (c.get name).1 = e.compute c.raws := by
  unfold Cache.get
  cases hm : getA c.memo name with
  | none => simp [he]
  | some v =>
    obtain ⟨e', he', hv⟩ := hcoh (name, v) (getA_mem _ _ _ hm)
    rw [he] at he'
    cases he'
    simpa using hv

theorem displayBodyEntry_respects (loc : String → String) :
    RespectsDeps (displayBodyEntry loc) := by
  intro r1 r2 h
  have hb := h "body" (by simp [displayBodyEntry])
  have hl := h "localize" (by simp [displayBodyEntry])
  simp [displayBodyEntry, getRaw, hb, hl]

theorem hreflangEntry_respects (cl : String) :
    RespectsDeps (hreflangEntry cl) := by
  intro r1 r2 h
  have hl := h "language" (by simp [hreflangEntry])
  simp [hreflangEntry, getRaw, hl]

/-- A concrete cache instance for this view: its two computed entries
with identity localization and locale language "en", the source's
default raw values, and an empty memo table. -/
def linkCache : Cache :=
  { raws := [("body", vStr ""), ("localize", vBool false), ("language", vNull)],
    entries := [("displayBody", displayBodyEntry fun s => s),
                ("hreflang", hreflangEntry "en")],
    memo := [] }

theorem linkCache_respects : ∀ p ∈ linkCache.entries, RespectsDeps p.2 := by
  intro p hp
  simp [linkCache] at hp
  rcases hp with h | h
  · rw [h]; exact displayBodyEntry_respects _
  · rw [h]; exact hreflangEntry_respects _

theorem linkCache_coherent : Coherent linkCache := by
  intro kv hkv
  simp [linkCache] at hkv

/-- C2: for every cache whose compute functions respect their declared
dependencies, after any sequence of raw-property writes the cache stays
coherent (every valid memoized value equals its entry's compute applied
to the current raw values, so no reader observes a stale cache), and a
read of a computed entry returns its compute function applied to the
latest raw values. -/
theorem computed_get_never_stale (c : Cache) (writes : List (String × JSVal))
    (name : String) (e : CEntry)
    (hresp : ∀ p ∈ c.entries, RespectsDeps p.2) (hcoh : Coherent c)
    (he : getA c.entries name = some e) :
    Coherent (runSets c writes) ∧
    ((runSets c writes).get name).1 = e.compute (runSets c writes).raws := by
  have hc : Coherent (runSets c writes) := coherent_runSets c writes hresp hcoh
  refine ⟨hc, get_fst_of_coherent _ _ _ hc ?_⟩
  rw [runSets_entries]
  exact he

/-- Witness for C2: the view's own cache, a write to `body`, and a read
of the computed `displayBody` entry. -/
theorem computed_get_never_stale_witness :
    Coherent (runSets linkCache [("body", vStr "CV")]) ∧
    ((runSets linkCache [("body", vStr "CV")]).get "displayBody").1
      = (displayBodyEntry fun s => s).compute (runSets linkCache [("body", vStr "CV")]).raws :=
  computed_get_never_stale linkCache [("body", vStr "CV")] "displayBody"
    (displayBodyEntry fun s => s) linkCache_respects linkCache_coherent rfl

/-- C6: two consecutive reads of the same name with no intervening write
return equal values, the second read never invokes compute and leaves
the cache unchanged, and compute runs at most once in total across the
two reads. -/
theorem get_twice_computes_at_most_once (c : Cache) (name : String) :
    ((c.get name).2.1.get name).2.2 = false ∧
    ((c.get name).2.1.get name).1 = (c.get name).1 ∧
    ((c.get name).2.1.get name).2.1 = (c.get name).2.1 ∧
    (cond (c.get name).2.2 1 0) + (cond ((c.get name).2.1.get name).2.2 1 0) ≤ 1 := by
  cases hm : getA c.memo name with
  | some v => simp [Cache.get, hm]
  | none =>
    cases he : getA c.entries name with
    | some e => simp [Cache.get, hm, he, getA_setA_self]
    | none => simp [Cache.get, hm, he]

theorem update_attrs_eq (n : Node) (s : Snapshot) :
    (update n s).node.attrs
      = setA (setA (setA (setA n.attrs "download" s.fileName) "href" s.href)
          "hreflang" s.hreflang) "title"
          (if truthy s.displayToolTip && s.escapeHTML then
            mapStr escapeHTML s.displayToolTip
           else s.displayToolTip) := rfl

theorem update_getA_other (n : Node) (s : Snapshot) (k : String)
    (h1 : k ≠ "download") (h2 : k ≠ "href") (h3 : k ≠ "hreflang") (h4 : k ≠ "title") :
    getA (update n s).node.attrs k = getA n.attrs k := by
  rw [update_attrs_eq, getA_setA_ne _ _ _ _ h4, getA_setA_ne _ _ _ _ h3,
      getA_setA_ne _ _ _ _ h2, getA_setA_ne _ _ _ _ h1]

theorem render_title (s : Snapshot) :
    getA (render s).attrs "title"
      = some (if truthy s.displayToolTip && s.escapeHTML then
          mapStr escapeHTML s.displayToolTip
        else s.displayToolTip) := rfl

theorem update_title (n : Node) (s : Snapshot) :
    getA (update n s).node.attrs "title"
      = some (if truthy s.displayToolTip && s.escapeHTML then
          mapStr escapeHTML s.displayToolTip
        else s.displayToolTip) := by
  rw [update_attrs_eq]
  exact getA_setA_self _ _ _

/-- A concrete snapshot for the tests below, built from the values of
the class documentation's example. -/
def snapA : Snapshot :=
  { displayBody := vStr "Current Resume",
    displayToolTip := vStr "Link to current resume",
    fileName := vStr "Resume - Tyler Keating.pdf",
    escapeHTML := true,
    href := vStr "/users/22/cur-resume.pdf",
    hreflang := vStr "en",
    ping := none,
    rel := none,
    target := vStr "_blank",
    type := vNull }

/-- The backing node the cold path creates from `snapA`. -/
def nodeA : Node := applyOutput (render snapA)

/-- C1 is false on the code: with a new snapshot that differs from the
rendered one only in the tooltip, the warm update still applies a
mutation to the href attribute although its value did not change. -/
theorem update_mutates_unchanged_field :
    ({ snapA with displayToolTip := vStr "New tip" } : Snapshot).href = snapA.href ∧
    "href" ∈ (update (applyOutput (render snapA))
      { snapA with displayToolTip := vStr "New tip" }).mutated := by
  exact ⟨rfl, by decide⟩

/-- C1 (amended): the warm update writes its five fixed targets
unconditionally, with no diff against the previous snapshot; still, when
the new snapshot differs from the rendered one only in the tooltip, the
content and every attribute other than title keep their previous values. -/
theorem update_changes_only_title_value (prev : Snapshot) (t : JSVal) :
    (update (applyOutput (render prev)) { prev with displayToolTip := t }).mutated
      = ["download", "href", "hreflang", "title", "html"] ∧
    (update (applyOutput (render prev)) { prev with displayToolTip := t }).node.html
      = (applyOutput (render prev)).html ∧
    ∀ k : String, k ≠ "title" →
      getA (update (applyOutput (render prev)) { prev with displayToolTip := t }).node.attrs k
        = getA (applyOutput (render prev)).attrs k := by
  refine ⟨rfl, rfl, ?_⟩
  intro k hk
  have h : (update (applyOutput (render prev)) { prev with displayToolTip := t }).node.attrs
      = setA (applyOutput (render prev)).attrs "title"
          (if truthy t && prev.escapeHTML then mapStr escapeHTML t else t) := rfl
  rw [h]
  exact getA_setA_ne _ _ _ _ hk

/-- Witness for the amended C1 at a concrete snapshot and tooltip. -/
theorem update_changes_only_title_value_witness :
    getA (update (applyOutput (render snapA))
        { snapA with displayToolTip := vStr "New tip" }).node.attrs "href"
      = getA (applyOutput (render snapA)).attrs "href" :=
  (update_changes_only_title_value snapA (vStr "New tip")).2.2 "href" (by decide)

/-- C3 is false on the code: a warm update right after a cold render of
the same snapshot still performs its five mutations, not zero. -/
theorem update_same_snapshot_still_mutates :
    (update (applyOutput (render snapA)) snapA).mutated.length = 5 ∧
    (update (applyOutput (render snapA)) snapA).mutated
      = ["download", "href", "hreflang", "title", "html"] := by
  exact ⟨rfl, rfl⟩

/-- C3 (amended): a warm update right after a cold render of the same
snapshot rewrites each of its five targets with the value already in
place, so the backing node is left exactly unchanged although five
mutations are performed. -/
theorem update_same_snapshot_node_unchanged (s : Snapshot) :
    (update (applyOutput (render s)) s).node = applyOutput (render s) := rfl

/-- C5: the warm path applies exactly the same escaping transformation
as the cold path: for every node and snapshot, the title value written
by update equals the title value emitted by render, and the content
written by update equals the content emitted by render. -/
theorem update_render_same_escaping (n : Node) (s : Snapshot) :
    getA (update n s).node.attrs "title" = getA (render s).attrs "title" ∧
    (update n s).node.html = (render s).content := by
  refine ⟨?_, rfl⟩
  rw [update_title, render_title]

/-- C7: the warm update never touches the set-once fields: the ping,
rel, target and type attributes keep their values on any node for any
snapshot, and none of them occurs in the mutation log. -/
theorem update_preserves_set_once_fields (n : Node) (s : Snapshot) :
    getA (update n s).node.attrs "ping" = getA n.attrs "ping" ∧
    getA (update n s).node.attrs "rel" = getA n.attrs "rel" ∧
    getA (update n s).node.attrs "target" = getA n.attrs "target" ∧
    getA (update n s).node.attrs "type" = getA n.attrs "type" ∧
    ((update n s).mutated.contains "ping" || (update n s).mutated.contains "rel"
      || (update n s).mutated.contains "target"
      || (update n s).mutated.contains "type") = false := by
  refine ⟨?_, ?_, ?_, ?_, rfl⟩
  · exact update_getA_other n s "ping" (by decide) (by decide) (by decide) (by decide)
  · exact update_getA_other n s "rel" (by decide) (by decide) (by decide) (by decide)
  · exact update_getA_other n s "target" (by decide) (by decide) (by decide) (by decide)
  · exact update_getA_other n s "type" (by decide) (by decide) (by decide) (by decide)

theorem render_content (s : Snapshot) :
    (render s).content
      = (if truthy s.displayBody && s.escapeHTML then mapStr escapeHTML s.displayBody
         else s.displayBody) := rfl

theorem update_html (n : Node) (s : Snapshot) :
    (update n s).node.html
      = (if truthy s.displayBody && s.escapeHTML then mapStr escapeHTML s.displayBody
         else s.displayBody) := rfl

/-- C4: the cold render emits the HTML-entity-escaped body as content
when escapeHTML is true and the raw body unchanged when it is false, and
the spec's concrete case holds: input `<b>hi</b>` escapes to
`&lt;b&gt;hi&lt;/b&gt;` and passes through unchanged when unescaped. -/
theorem render_escapes_content (s : Snapshot) (body : String) :
    (render { s with displayBody := vStr body, escapeHTML := true }).content
      = vStr (escapeHTML body) ∧
    (render { s with displayBody := vStr body, escapeHTML := false }).content
      = vStr body ∧
    escapeHTML "<b>hi</b>" = "&lt;b&gt;hi&lt;/b&gt;" := by
  refine ⟨?_, by simp [render_content], by decide⟩
  by_cases hb : body = ""
  · subst hb; rfl
  · simp [render_content, truthy, mapStr, hb]

/-- C8: displayBody is always a string when body is null, undefined or
a string: a falsy body yields the empty string, a truthy body with
localize on yields the localized body, and a truthy body with localize
off yields body itself. -/
theorem displayBody_always_string (loc : String → String) (body localize : JSVal)
    (hbody : body = vNull ∨ body = vUndef ∨ ∃ s, body = vStr s) :
    isStr (displayBody loc body localize) = true ∧
    (truthy body = false → displayBody loc body localize = vStr "") ∧
    (truthy body = true → truthy localize = true →
      displayBody loc body localize = mapStr loc body) ∧
    (truthy body = true → truthy localize = false →
      displayBody loc body localize = body) := by
  rcases hbody with h | h | ⟨s, h⟩ <;> subst h
  · simp [displayBody, truthy, isStr]
  · simp [displayBody, truthy, isStr]
  · by_cases hs : s = ""
    · subst hs; simp [displayBody, truthy, isStr]
    · have ht : truthy (vStr s) = true := by simp [truthy, hs]
      cases hl : truthy localize
      · simp [displayBody, ht, hl, isStr]
      · simp [displayBody, ht, hl, isStr, mapStr]

/-- Witness for C8 at a concrete truthy body with localization on. -/
theorem displayBody_always_string_witness :
    isStr (displayBody (fun s => s) (vStr "hi") (vBool true)) = true ∧
    (truthy (vStr "hi") = false →
      displayBody (fun s => s) (vStr "hi") (vBool true) = vStr "") ∧
    (truthy (vStr "hi") = true → truthy (vBool true) = true →
      displayBody (fun s => s) (vStr "hi") (vBool true) = mapStr (fun s => s) (vStr "hi")) ∧
    (truthy (vStr "hi") = true → truthy (vBool true) = false →
      displayBody (fun s => s) (vStr "hi") (vBool true) = vStr "hi") :=
  displayBody_always_string (fun s => s) (vStr "hi") (vBool true)
    (Or.inr (Or.inr ⟨"hi", rfl⟩))

/-- C9: hreflang is never null: it is language itself when language is
truthy and the current locale's language otherwise. -/
theorem hreflang_never_null (cl : String) (language : JSVal) :
    (hreflang cl language == vNull) = false ∧
    (truthy language = true → hreflang cl language = language) ∧
    (truthy language = false → hreflang cl language = vStr cl) := by
  refine ⟨?_, fun h => by simp [hreflang, h], fun h => by simp [hreflang, h]⟩
  cases hl : truthy language
  · simp [hreflang, hl]
  · cases language with
    | vNull => simp [truthy] at hl
    | vUndef => simp [truthy] at hl
    | vBool b => simp [hreflang, hl]
    | vStr s2 => simp [hreflang, hl]

/-- Witness for C9 at a null language and locale language "en". -/
theorem hreflang_never_null_witness :
    (hreflang "en" vNull == vNull) = false ∧
    (truthy vNull = true → hreflang "en" vNull = vNull) ∧
    (truthy vNull = false → hreflang "en" vNull = vStr "en") :=
  hreflang_never_null "en" vNull

/-- The snapshot `s0` with tooltip and body both set to `v` and the
escapeHTML switch on. -/
def withEscaped (s0 : Snapshot) (v : JSVal) : Snapshot :=
  { s0 with
    displayBody := v
    displayToolTip := v
    escapeHTML := true }

/-- C10: with escapeHTML true, both paths escape the body and the title
only when the value is truthy: a falsy value flows to the content sink
and to the title attribute unescaped, while a truthy string value is
escaped by both paths. -/
theorem escape_only_when_truthy (n : Node) (s0 : Snapshot) (v : JSVal) :
    (truthy v = false →
      (render (withEscaped s0 v)).content = v ∧
      getA (render (withEscaped s0 v)).attrs "title" = some v ∧
      (update n (withEscaped s0 v)).node.html = v ∧
      getA (update n (withEscaped s0 v)).node.attrs "title" = some v) ∧
    (truthy v = true →
      (render (withEscaped s0 v)).content = mapStr escapeHTML v ∧
      getA (render (withEscaped s0 v)).attrs "title" = some (mapStr escapeHTML v) ∧
      (update n (withEscaped s0 v)).node.html = mapStr escapeHTML v ∧
      getA (update n (withEscaped s0 v)).node.attrs "title"
        = some (mapStr escapeHTML v)) := by
  constructor <;> intro h <;>
    refine ⟨?_, ?_, ?_, ?_⟩ <;>
      simp [withEscaped, render_content, render_title, update_html, update_title, h]

/-- Witness for C10: a null tooltip and body pass through both paths
unescaped even with escapeHTML set. -/
theorem escape_only_when_truthy_witness :
    (render (withEscaped snapA vNull)).content = vNull ∧
    getA (render (withEscaped snapA vNull)).attrs "title" = some vNull ∧
    (update nodeA (withEscaped snapA vNull)).node.html = vNull ∧
    getA (update nodeA (withEscaped snapA vNull)).node.attrs "title" = some vNull :=
  (escape_only_when_truthy nodeA snapA vNull).1 rfl

end LinkView
